import Mathlib

/-!
# Verification of the query-safety gate of `pg_data_analyzer`

Shallow embedding of `src/tools.py`. The central function is
`validate_select_query`, which strips SQL comments with two `re.sub`
passes, trims whitespace, checks a case-insensitive `^\s*SELECT\b`
anchor, and scans for forbidden whole-word keywords.

Modelling notes, matching CPython `re` semantics on the patterns used:
* `re.sub(r'--.*?\n', '', q, flags=re.MULTILINE)`: `.` does not match
  a newline and `MULTILINE` only affects `^`/`$`, so each match is the
  leftmost `--` followed by the shortest run of non-newline characters
  and a terminating `'\n'` (the newline is removed too).  A trailing
  `--` comment with no newline after it never matches, and then no
  later `--` can match either, so the remainder is kept verbatim.
  `stripLCAux` below is this scan as a one-character-at-a-time state
  machine: `dash` = a `'-'` has been read and is withheld pending a
  second one, `comment` = inside a candidate match whose characters
  (reversed) are withheld in the state, to be restored verbatim if the
  input ends before a newline is found.
* `re.sub(r'/\*.*?\*/', '', q, flags=re.DOTALL)`: leftmost `/*`
  through the first later `*/`, newlines included; an unterminated
  `/*` never matches (and no later `/*` can then match either, since
  its closing `*/` would already have closed the earlier one), so the
  remainder is kept verbatim.  `stripBCAux` is the corresponding
  machine: `slash` withholds a `'/'`, `comment`/`star` are inside a
  candidate match (`star` = the previous character was `'*'`), with
  withheld characters restored verbatim at end of input.
* `str.strip()` removes leading and trailing whitespace; `\s` in the
  anchor pattern matches whitespace.  Both are modelled with the ASCII
  whitespace class (space, tab, newline, carriage return, vertical
  tab, form feed); Python additionally covers non-ASCII Unicode
  whitespace, immaterial to the claims checked here.
* `\b` (word boundary) and the word class are modelled with ASCII
  `[A-Za-z0-9_]`; Python's Unicode word characters beyond ASCII do not
  affect the ASCII keywords involved.
* `re.IGNORECASE` on ASCII pattern letters is modelled by lowercasing
  both sides.
-/

set_option maxRecDepth 100000

namespace PgDataAnalyzer

/-- Whitespace class used by `str.strip()` and `\s` (ASCII part). -/
def isPySpace (c : Char) : Bool :=
  c = ' ' || c = '\t' || c = '\n' || c = '\r' || c = '\x0b' || c = '\x0c'

/-- Word character for `\b`: ASCII letters, digits, underscore. -/
def isWordChar (c : Char) : Bool :=
  c.isAlphanum || c = '_'

/-- Scanner state for the `--.*?\n` substitution pass. -/
inductive LineScanState where
  | normal : LineScanState
  | dash : LineScanState
  | comment : List Char → LineScanState

/-- One-character scan realising `re.sub(r'--.*?\n', '', ·)`: on `--`,
withhold characters until a newline (then drop them all, newline
included) or until end of input (then restore them, as the pattern has
no match there). -/
def stripLCAux : List Char → LineScanState → List Char
  | [], .normal => []
  | [], .dash => ['-']
  | [], .comment pending => pending.reverse
  | c :: r, .normal =>
    if c = '-' then stripLCAux r .dash
    else c :: stripLCAux r .normal
  | c :: r, .dash =>
    if c = '-' then stripLCAux r (.comment ['-', '-'])
    else '-' :: c :: stripLCAux r .normal
  | c :: r, .comment pending =>
    if c = '\n' then stripLCAux r .normal
    else stripLCAux r (.comment (c :: pending))

/-- First pass of the source: `re.sub(r'--.*?\n', '', query)`. -/
def stripLineComments (l : List Char) : List Char :=
  stripLCAux l .normal

/-- Scanner state for the `/\*.*?\*/` substitution pass. -/
inductive BlockScanState where
  | normal : BlockScanState
  | slash : BlockScanState
  | comment : List Char → BlockScanState
  | star : List Char → BlockScanState

/-- One-character scan realising `re.sub(r'/\*.*?\*/', '', ·)` with
`DOTALL`: on `/*`, withhold characters until the first `*/` (then drop
them all) or until end of input (then restore them). -/
def stripBCAux : List Char → BlockScanState → List Char
  | [], .normal => []
  | [], .slash => ['/']
  | [], .comment pending => pending.reverse
  | [], .star pending => pending.reverse
  | c :: r, .normal =>
    if c = '/' then stripBCAux r .slash
    else c :: stripBCAux r .normal
  | c :: r, .slash =>
    if c = '*' then stripBCAux r (.comment ['*', '/'])
    else if c = '/' then '/' :: stripBCAux r .slash
    else '/' :: c :: stripBCAux r .normal
  | c :: r, .comment pending =>
    if c = '*' then stripBCAux r (.star ('*' :: pending))
    else stripBCAux r (.comment (c :: pending))
  | c :: r, .star pending =>
    if c = '/' then stripBCAux r .normal
    else if c = '*' then stripBCAux r (.star ('*' :: pending))
    else stripBCAux r (.comment (c :: pending))

/-- Second pass of the source: `re.sub(r'/\*.*?\*/', '', ·, DOTALL)`. -/
def stripBlockComments (l : List Char) : List Char :=
  stripBCAux l .normal

/-- Both comment passes, in the source's order: line comments first,
then block comments. -/
def stripComments (l : List Char) : List Char :=
  stripBlockComments (stripLineComments l)

/-- Remove the longest trailing run of whitespace characters. -/
def dropTrailing : List Char → List Char
  | [] => []
  | c :: r =>
    let r' := dropTrailing r
    if r' = [] && isPySpace c then [] else c :: r'

/-- Python `str.strip()` on the ASCII whitespace class: remove the
longest leading and trailing whitespace runs. -/
def stripList (l : List Char) : List Char :=
  dropTrailing (l.dropWhile isPySpace)

/-- The `cleaned_query` value of the source: comments stripped, then
whitespace trimmed. -/
def cleanQuery (l : List Char) : List Char :=
  stripList (stripComments l)

/-- Case-insensitive match of `kw` at the head of `l` followed by a word
boundary (the trailing `\b` of the patterns; every keyword ends in a
letter, so the boundary holds iff the next character is absent or not a
word character). -/
def ciHeadWordB : List Char → List Char → Bool
  | [], [] => true
  | [], c :: _ => !isWordChar c
  | _ :: _, [] => false
  | k :: ks, c :: cs => c.toLower = k.toLower && ciHeadWordB ks cs

/-- The source's gate `re.match(r'^\s*SELECT\b', cleaned, I)`: skip
leading whitespace (no whitespace character can begin `SELECT`, so the
greedy `\s*` never backtracks usefully), then require `SELECT`
case-insensitively at the head, followed by a word boundary. -/
def selectHeadCheck (l : List Char) : Bool :=
  ciHeadWordB "SELECT".data (l.dropWhile isPySpace)

/-- The scan `re.search(r'\b K \b', l, I)` for a keyword `K` made of
word characters: test every position whose preceding character is not a
word character (`prevWord` records whether the previous character is a
word character; at the start of the string there is none). -/
def searchWordCI (kw : List Char) (prevWord : Bool) : List Char → Bool
  | [] => false
  | c :: cs =>
    (!prevWord && ciHeadWordB kw (c :: cs)) || searchWordCI kw (isWordChar c) cs

/-- The source's forbidden keyword list, in order. -/
def forbidden_keywords : List String :=
  ["INSERT", "UPDATE", "DELETE", "DROP", "CREATE", "ALTER", "TRUNCATE"]

/-- The source's scan loop: some forbidden keyword occurs in `l` as a
whole word, case-insensitively. -/
def hasForbiddenKeyword (l : List Char) : Bool :=
  forbidden_keywords.any (fun kw => searchWordCI kw.data false l)

/-- Embedding of `validate_select_query` (src/tools.py, lines 20–45). -/
def validate_select_query (s : String) : Bool :=
  let cleaned := cleanQuery s.data
  if !selectHeadCheck cleaned then
    false
  else if hasForbiddenKeyword cleaned then
    false
  else
    true

/-! ## Spec-side notions

The spec (§8) quantifies over occurrences of keywords "outside of any
comment span" of the *original* string, and over strings that "start
with SELECT (case-insensitive)".  These predicates are formalised here
from the spec's words, to be compared against the code's behaviour. -/

/-- States for marking the spec's comment spans while scanning:
`dash`/`slash` withhold a first `'-'`/`'/'`, `line` is inside a
`--`-to-end-of-line span, `block`/`star` inside a `/*...*/` span
(`star` = the previous character was `'*'`). -/
inductive MaskState where
  | normal : MaskState
  | dash : MaskState
  | slash : MaskState
  | line : MaskState
  | block : MaskState
  | star : MaskState

/-- The comment-span mask of a string, one Boolean per character:
`true` iff the character lies inside a `--`-to-end-of-line span
(newline included) or a `/*...*/` span (delimiters included).  An
unterminated `/*` span is taken to extend to end of input; the claims
checked here use the mask only on strings without that corner. -/
def maskAux : List Char → MaskState → List Bool
  | [], .normal => []
  | [], .dash => [false]
  | [], .slash => [false]
  | [], .line => []
  | [], .block => []
  | [], .star => []
  | c :: r, .normal =>
    if c = '-' then maskAux r .dash
    else if c = '/' then maskAux r .slash
    else false :: maskAux r .normal
  | c :: r, .dash =>
    if c = '-' then true :: true :: maskAux r .line
    else if c = '/' then false :: maskAux r .slash
    else false :: false :: maskAux r .normal
  | c :: r, .slash =>
    if c = '*' then true :: true :: maskAux r .block
    else if c = '/' then false :: maskAux r .slash
    else if c = '-' then false :: maskAux r .dash
    else false :: false :: maskAux r .normal
  | c :: r, .line =>
    if c = '\n' then true :: maskAux r .normal
    else true :: maskAux r .line
  | c :: r, .block =>
    if c = '*' then true :: maskAux r .star
    else true :: maskAux r .block
  | c :: r, .star =>
    if c = '/' then true :: maskAux r .normal
    else if c = '*' then true :: maskAux r .star
    else true :: maskAux r .block

/-- Comment-span mask of a string (spec §8 wording). -/
def commentMask (l : List Char) : List Bool :=
  maskAux l .normal

/-- Word test on an optional character; `none` (no character) is not a
word character. -/
def optIsWord : Option Char → Bool
  | none => false
  | some c => isWordChar c

/-- Case-insensitive match of `kw` at the head of `l` (plain prefix of
letters, no word-boundary requirement) — the spec's literal reading of
"starts with SELECT (case-insensitive)". -/
def ciHead : List Char → List Char → Bool
  | [], _ => true
  | _ :: _, [] => false
  | k :: ks, c :: cs => c.toLower = k.toLower && ciHead ks cs

/-- The spec's "starts with `SELECT` (case-insensitive)". -/
def startsWithSelectCI (l : List Char) : Bool :=
  ciHead "SELECT".data l

/-- Spec §8: keyword `kw` occurs in `l` at position `i` as a whole word
(case-insensitive, word boundaries on both sides) with every covered
position outside of any comment span. -/
def specKwAt (kw l : List Char) (i : Nat) : Bool :=
  ciHeadWordB kw (l.drop i) &&
  (decide (i = 0) || !optIsWord ((l.drop (i - 1)).head?)) &&
  (List.range kw.length).all (fun j => !((commentMask l).getD (i + j) true))

/-- Spec §8: some forbidden keyword occurs in `l`, outside of any
comment span, as a whole word, case-insensitively. -/
def spec_hasForbiddenOutsideComments (l : List Char) : Bool :=
  forbidden_keywords.any (fun kw =>
    (List.range l.length).any (fun i => specKwAt kw.data l i))

/-- The hypothesis of claim C10: the text begins with the letters
`SELECT` (case-insensitive) immediately followed by another word
character. -/
def selectThenWordChar (l : List Char) : Bool :=
  startsWithSelectCI l && optIsWord ((l.drop 6).head?)

/-! ## Embedding of `get_database_schema`

`get_database_schema` (src/tools.py, lines 67–112) opens a connection,
queries `information_schema.columns`, formats the rows as text, and
wraps everything in `try/except Exception`: any raised exception `e`
yields the value `{'error': f"Encountered an error: {str(e)}"}`.  The
fallible driver steps (connection, introspection query, row fetch) are
modelled by their outcome, an `Except` value; the formatting loop over
the fetched rows is embedded directly. -/

/-- One row of the `information_schema.columns` introspection query. -/
structure ColumnRow where
  table_name : String
  column_name : String
  data_type : String
  is_nullable : String

/-- One step of the grouping loop: append `row` to its table's column
list, keyed by first appearance (Python dict insertion order). -/
def insertRow (tables : List (String × List ColumnRow)) (row : ColumnRow) :
    List (String × List ColumnRow) :=
  match tables with
  | [] => [(row.table_name, [row])]
  | (t, cols) :: rest =>
    if t = row.table_name then (t, cols ++ [row]) :: rest
    else (t, cols) :: insertRow rest row

/-- The `tables` dictionary of the source, as an ordered association
list. -/
def groupTables (rows : List ColumnRow) : List (String × List ColumnRow) :=
  rows.foldl insertRow []

/-- The `nullable` rendering: `"NULL"` iff `is_nullable == 'YES'`. -/
def nullableText (v : String) : String :=
  if v = "YES" then "NULL" else "NOT NULL"

/-- One `  - column (type, nullable)` line of the schema text. -/
def columnLine (r : ColumnRow) : String :=
  "  - " ++ r.column_name ++ " (" ++ r.data_type ++ ", " ++
    nullableText r.is_nullable ++ ")\n"

/-- One `Table:` paragraph of the schema text. -/
def tableBlock (t : String × List ColumnRow) : String :=
  "\nTable: " ++ t.1 ++ "\n" ++ String.join (t.2.map columnLine)

/-- The `schema_text` value built by the source's formatting loops. -/
def schemaText (rows : List ColumnRow) : String :=
  "Database Schema:\n" ++ String.join ((groupTables rows).map tableBlock)

/-- Result value of `get_database_schema`: either `{'schema': text}` or
`{'error': message}`. -/
inductive SchemaResult where
  | schema : String → SchemaResult
  | error : String → SchemaResult

/-- Embedding of `get_database_schema`: `fetched` is the outcome of the
fallible steps inside the `try` block (`Except.error e` models any
raised exception with message `e`); the `except` clause returns the
`error` value with the source's message format. -/
def get_database_schema (fetched : Except String (List ColumnRow)) : SchemaResult :=
  match fetched with
  | .ok rows => .schema (schemaText rows)
  | .error e => .error ("Encountered an error: " ++ e)

/-- The text still contains a match of `--.*?\n`: its first `--` (the
leftmost candidate, the one the scan would take) is followed, somewhere
later, by a newline.  If the first `--` has no later newline, no later
`--` has one either, so the whole text is match-free. -/
def hasLC : List Char → Bool
  | [] => false
  | [_] => false
  | c1 :: c2 :: r =>
    if c1 = '-' ∧ c2 = '-' then decide ('\n' ∈ r) else hasLC (c2 :: r)

end PgDataAnalyzer

namespace PgDataAnalyzer

/-! ## Helper lemmas -/

theorem dropWhile_head_false {p : Char → Bool} :
    ∀ {l : List Char} {c : Char}, (l.dropWhile p).head? = some c → p c = false := by
  intro l
  induction l with
  | nil => intro c h; simp at h
  | cons a r ih =>
    intro c h
    by_cases ha : p a
    · rw [List.dropWhile_cons, if_pos ha] at h
      exact ih h
    · rw [List.dropWhile_cons, if_neg ha] at h
      simp at h
      subst h
      exact Bool.eq_false_iff.mpr ha

theorem dropTrailing_head (l : List Char) :
    dropTrailing l = [] ∨ (dropTrailing l).head? = l.head? := by
  cases l with
  | nil => exact Or.inl rfl
  | cons c r =>
    by_cases h : dropTrailing r = [] && isPySpace c
    · exact Or.inl (by simp [dropTrailing, h])
    · refine Or.inr ?_
      simp only [dropTrailing]
      rw [if_neg (by simpa using h)]
      simp

theorem dropWhile_stripList (l : List Char) :
    (stripList l).dropWhile isPySpace = stripList l := by
  unfold stripList
  rcases h : dropTrailing (l.dropWhile isPySpace) with _ | ⟨c, t⟩
  · rfl
  · rcases dropTrailing_head (l.dropWhile isPySpace) with h0 | h0
    · rw [h] at h0; cases h0
    · rw [h] at h0
      have hc : isPySpace c = false := dropWhile_head_false h0.symm
      rw [List.dropWhile_cons, if_neg (by simp [hc])]

theorem cleanQuery_dropWhile (l : List Char) :
    (cleanQuery l).dropWhile isPySpace = cleanQuery l :=
  dropWhile_stripList (stripComments l)

theorem ciHead_of_ciHeadWordB :
    ∀ {kw l : List Char}, ciHeadWordB kw l = true → ciHead kw l = true := by
  intro kw
  induction kw with
  | nil => intro l _; rfl
  | cons k ks ih =>
    intro l h
    cases l with
    | nil => simp [ciHeadWordB] at h
    | cons c cs =>
      simp only [ciHeadWordB, Bool.and_eq_true] at h
      simp only [ciHead, Bool.and_eq_true]
      exact ⟨h.1, ih h.2⟩

theorem ciHeadWordB_false_of_next_word :
    ∀ {kw l : List Char}, ciHead kw l = true →
      optIsWord ((l.drop kw.length).head?) = true → ciHeadWordB kw l = false := by
  intro kw
  induction kw with
  | nil =>
    intro l _ hw
    cases l with
    | nil => simp [optIsWord] at hw
    | cons c cs =>
      simp only [List.length_nil, List.drop_zero, List.head?_cons, optIsWord] at hw
      simp [ciHeadWordB, hw]
  | cons k ks ih =>
    intro l hh hw
    cases l with
    | nil => simp [ciHead] at hh
    | cons c cs =>
      simp only [ciHead, Bool.and_eq_true] at hh
      have hw' : optIsWord ((cs.drop ks.length).head?) = true := by
        simpa [List.drop_succ_cons] using hw
      simp [ciHeadWordB, ih hh.2 hw']

theorem hasLC_cons {c : Char} (X : List Char) (hc : c ≠ '-') :
    hasLC (c :: X) = hasLC X := by
  cases X with
  | nil => rfl
  | cons x xs => simp [hasLC, hc]

theorem hasLC_eq_false_of_no_newline :
    ∀ {ys : List Char}, '\n' ∉ ys → hasLC ys = false := by
  intro ys
  induction ys with
  | nil => intro _; rfl
  | cons c t ih =>
    intro h
    cases t with
    | nil => rfl
    | cons c2 r =>
      by_cases hd : c = '-' ∧ c2 = '-'
      · simp only [hasLC, if_pos hd, decide_eq_false_iff_not]
        intro hm
        exact h (by simp [hm])
      · rw [show hasLC (c :: c2 :: r) = hasLC (c2 :: r) from by simp [hasLC, hd]]
        exact ih (fun hm => h (List.mem_cons_of_mem _ hm))

theorem stripLCAux_comment_no_newline :
    ∀ (r pending : List Char), '\n' ∉ r →
      stripLCAux r (.comment pending) = pending.reverse ++ r := by
  intro r
  induction r with
  | nil => intro pending _; simp [stripLCAux]
  | cons c t ih =>
    intro pending h
    have hc : ¬(c = '\n') := fun e => h (by simp [e])
    simp only [stripLCAux, if_neg hc]
    rw [ih (c :: pending) (fun hm => h (List.mem_cons_of_mem _ hm))]
    simp

theorem hasLC_stripLCAux :
    ∀ (l : List Char) (m : LineScanState),
      (∀ pending, m = .comment pending → '\n' ∉ pending) →
      hasLC (stripLCAux l m) = false := by
  intro l
  induction l with
  | nil =>
    intro m hm
    cases m with
    | normal => rfl
    | dash => rfl
    | comment pending =>
      have hp := hm pending rfl
      simp only [stripLCAux]
      exact hasLC_eq_false_of_no_newline (by simpa using hp)
  | cons c r ih =>
    intro m hm
    cases m with
    | normal =>
      by_cases hc : c = '-'
      · subst hc
        simp only [stripLCAux, if_pos rfl]
        exact ih .dash (fun p h => by cases h)
      · simp only [stripLCAux, if_neg hc]
        rw [hasLC_cons _ hc]
        exact ih .normal (fun p h => by cases h)
    | dash =>
      by_cases hc : c = '-'
      · subst hc
        simp only [stripLCAux, if_pos rfl]
        refine ih (.comment ['-', '-']) (fun p h => by cases h; decide)
      · simp only [stripLCAux, if_neg hc]
        have h1 : hasLC ('-' :: c :: stripLCAux r .normal) =
            hasLC (c :: stripLCAux r .normal) := by
          simp [hasLC, hc]
        rw [h1, hasLC_cons _ hc]
        exact ih .normal (fun p h => by cases h)
    | comment pending =>
      have hp := hm pending rfl
      by_cases hc : c = '\n'
      · subst hc
        simp only [stripLCAux, if_pos rfl]
        exact ih .normal (fun p h => by cases h)
      · simp only [stripLCAux, if_neg hc]
        refine ih (.comment (c :: pending)) (fun p h => by
          cases h
          intro hm2
          rcases List.mem_cons.mp hm2 with h2 | h2
          · exact hc h2.symm
          · exact hp h2)

theorem stripLCAux_fix :
    ∀ (n : Nat) (t : List Char), t.length ≤ n → hasLC t = false →
      stripLCAux t .normal = t := by
  intro n
  induction n with
  | zero =>
    intro t ht _
    have : t = [] := by cases t with
      | nil => rfl
      | cons a r => simp at ht
    subst this; rfl
  | succ n ih =>
    intro t ht h
    cases t with
    | nil => rfl
    | cons c r =>
      by_cases hc : c = '-'
      · subst hc
        cases r with
        | nil => rfl
        | cons b r2 =>
          by_cases hb : b = '-'
          · subst hb
            have hnl : '\n' ∉ r2 := by
              simpa [hasLC] using h
            simp only [stripLCAux, if_pos rfl]
            rw [stripLCAux_comment_no_newline r2 ['-', '-'] hnl]
            rfl
          · have h2 : hasLC r2 = false := by
              have e1 : hasLC ('-' :: b :: r2) = hasLC (b :: r2) := by
                simp [hasLC, hb]
              rw [e1, hasLC_cons _ hb] at h
              exact h
            have hstep : stripLCAux ('-' :: b :: r2) .normal =
                '-' :: b :: stripLCAux r2 .normal := by
              simp [stripLCAux, hb]
            rw [hstep, ih r2 (by simp at ht; omega) h2]
      · simp only [stripLCAux, if_neg hc]
        have h2 : hasLC r = false := by rw [hasLC_cons _ hc] at h; exact h
        rw [ih r (by simp at ht; omega) h2]

/-! ## Claim theorems -/

/-- C1 (counterexample): contrary to the claim,
`validate_select_query("SELECT * FROM users -- DROP TABLE users")`
returns False: the trailing `--` comment has no terminating newline, so
the `--.*?\n` substitution does not match it, `DROP` survives into the
keyword scan, and the query is rejected. -/
theorem C1_counterexample :
    validate_select_query "SELECT * FROM users -- DROP TABLE users" = false := by
  decide

/-- C1 (amended): `validate_select_query("SELECT * FROM users -- DROP
TABLE users")` returns False, because the trailing line comment lacks a
terminating newline and is therefore not stripped; with a terminating
newline the comment (newline included) is stripped before the keyword
scan and the query is accepted. -/
theorem C1_trailing_comment_needs_newline :
    validate_select_query "SELECT * FROM users -- DROP TABLE users" = false ∧
    validate_select_query "SELECT * FROM users -- DROP TABLE users\n" = true :=
  ⟨by decide, by decide⟩

/-- C2 (counterexample): the string `"SELECT a-- c\nDROP TABLE t"`
contains `DROP` as a whole word outside of any comment span, yet
`validate_select_query` returns True: the line-comment substitution
removes `-- c` together with the newline, fusing `a` and `DROP` into
the identifier `aDROP`, which no longer matches `\bDROP\b`. -/
theorem C2_counterexample :
    spec_hasForbiddenOutsideComments "SELECT a-- c\nDROP TABLE t".data = true ∧
    validate_select_query "SELECT a-- c\nDROP TABLE t" = true :=
  ⟨by decide, by decide⟩

/-- C2 (amended): for every string whose comment-stripped, trimmed text
contains a whole-word case-insensitive occurrence of a forbidden
keyword, `validate_select_query` returns False, regardless of whether
the text starts with SELECT.  (The hypothesis must be read on the
cleaned text: comment removal can fuse characters adjacent to a removed
comment, so a keyword outside comments in the original string may
escape the scan.) -/
theorem C2_cleaned_keyword_rejected (s : String)
    (h : hasForbiddenKeyword (cleanQuery s.data) = true) :
    validate_select_query s = false := by
  by_cases hp : selectHeadCheck (cleanQuery s.data) = true
  · simp [validate_select_query, hp, h]
  · have hp' : selectHeadCheck (cleanQuery s.data) = false := by
      revert hp; cases selectHeadCheck (cleanQuery s.data) <;> simp
    simp [validate_select_query, hp']

/-- Witness for C2 (amended) at `"SELECT 1; DROP TABLE t"`. -/
theorem C2_witness :
    hasForbiddenKeyword (cleanQuery ("SELECT 1; DROP TABLE t" : String).data) = true ∧
    validate_select_query "SELECT 1; DROP TABLE t" = false :=
  ⟨by decide, C2_cleaned_keyword_rejected "SELECT 1; DROP TABLE t" (by decide)⟩

/-- C3 (counterexample): the string `"SELECT DR-- c\nOP t"` starts (after
stripping and trimming) with SELECT and contains no whole-word forbidden
keyword outside comment spans, yet `validate_select_query` returns
False: stripping the comment fuses `DR` and `OP` into `DROP`, which the
keyword scan then finds. -/
theorem C3_counterexample :
    startsWithSelectCI (cleanQuery "SELECT DR-- c\nOP t".data) = true ∧
    spec_hasForbiddenOutsideComments "SELECT DR-- c\nOP t".data = false ∧
    validate_select_query "SELECT DR-- c\nOP t" = false :=
  ⟨by decide, by decide, by decide⟩

/-- C3 (amended): for every string that, after comment stripping and
trimming, starts with SELECT as a whole word (case-insensitive, the
code's head check) and whose cleaned text contains no whole-word
case-insensitive forbidden keyword, `validate_select_query` returns
True. -/
theorem C3_clean_select_accepted (s : String)
    (h1 : selectHeadCheck (cleanQuery s.data) = true)
    (h2 : hasForbiddenKeyword (cleanQuery s.data) = false) :
    validate_select_query s = true := by
  simp [validate_select_query, h1, h2]

/-- Witness for C3 (amended) at `"SELECT * FROM users"`. -/
theorem C3_witness :
    selectHeadCheck (cleanQuery ("SELECT * FROM users" : String).data) = true ∧
    hasForbiddenKeyword (cleanQuery ("SELECT * FROM users" : String).data) = false ∧
    validate_select_query "SELECT * FROM users" = true :=
  ⟨by decide, by decide,
    C3_clean_select_accepted "SELECT * FROM users" (by decide) (by decide)⟩

/-- C4: for every string whose comment-stripped, trimmed text does not
start with SELECT (case-insensitive) — including the empty string, text
beginning with WITH, text beginning with a parenthesis, and any
non-SELECT first statement — `validate_select_query` returns False. -/
theorem C4_non_select_rejected (s : String)
    (h : startsWithSelectCI (cleanQuery s.data) = false) :
    validate_select_query s = false := by
  have hp : selectHeadCheck (cleanQuery s.data) = false := by
    by_contra hne
    have hp1 : selectHeadCheck (cleanQuery s.data) = true := by
      revert hne; cases selectHeadCheck (cleanQuery s.data) <;> simp
    have h1 : ciHeadWordB "SELECT".data (cleanQuery s.data) = true := by
      have h0 := hp1
      unfold selectHeadCheck at h0
      rwa [cleanQuery_dropWhile] at h0
    have h2 := ciHead_of_ciHeadWordB h1
    have h3 : startsWithSelectCI (cleanQuery s.data) = true := h2
    rw [h] at h3
    cases h3
  simp [validate_select_query, hp]

/-- Witness for C4 at `"DROP TABLE users"`. -/
theorem C4_witness :
    startsWithSelectCI (cleanQuery ("DROP TABLE users" : String).data) = false ∧
    validate_select_query "DROP TABLE users" = false :=
  ⟨by decide, C4_non_select_rejected "DROP TABLE users" (by decide)⟩

/-- C5: forbidden-keyword matching is word-boundary-sensitive, not
substring-based: `SELECT updated_at FROM t` is accepted (UPDATE inside
`updated_at` does not trigger rejection) and `SELECT created_at FROM
logs` is accepted (CREATE inside `created_at` does not trigger
rejection). -/
theorem C5_word_boundary_identifiers :
    validate_select_query "SELECT updated_at FROM t" = true ∧
    validate_select_query "SELECT created_at FROM logs" = true :=
  ⟨by decide, by decide⟩

/-- C6: `validate_select_query` is total: for every string input it
returns a Boolean verdict (the embedding is a total function into
`Bool`, so every invocation terminates with one of the two verdicts and
no exception path exists). -/
theorem C6_total_verdict (s : String) :
    validate_select_query s = true ∨ validate_select_query s = false := by
  cases h : validate_select_query s
  · exact Or.inr rfl
  · exact Or.inl rfl

/-- C7 (counterexample): comment stripping (line comments then block
comments) is not idempotent: on the string consisting of a dash, the
block comment `/*x*/`, a dash, a space, `y`, a newline and `z`, the
first application removes the block comment and fuses the two dashes
into a new `--` line comment (`"-- y\nz"`), which a second application
then removes, giving `"z"`. -/
theorem C7_counterexample :
    stripComments (stripComments "-/*x*/- y\nz".data) ≠
      stripComments "-/*x*/- y\nz".data := by
  decide

/-- C7 (amended): the line-comment pass alone is idempotent: re-applying
the `--...\n` removal to its own output is a no-op.  (The composite
line-then-block transformation is not idempotent, because block-comment
removal can fuse surrounding characters into a new `--` opener, as the
counterexample shows.) -/
theorem C7_line_stripping_idempotent (l : List Char) :
    stripLineComments (stripLineComments l) = stripLineComments l := by
  show stripLCAux (stripLCAux l .normal) .normal = stripLCAux l .normal
  have h := hasLC_stripLCAux l .normal (fun p hp => by cases hp)
  exact stripLCAux_fix (stripLCAux l .normal).length (stripLCAux l .normal) le_rfl h

/-- C8: `validate_select_query` is a deterministic pure function of its
input text: the embedding takes only the query string (the keyword set
is a fixed constant), so any two invocations on equal inputs return
equal verdicts. -/
theorem C8_deterministic (s t : String) (h : s = t) :
    validate_select_query s = validate_select_query t := by
  rw [h]

/-- Witness for C8 at `"SELECT 1"`. -/
theorem C8_witness :
    ("SELECT 1" : String) = "SELECT 1" ∧
    validate_select_query "SELECT 1" = validate_select_query "SELECT 1" :=
  ⟨rfl, C8_deterministic "SELECT 1" "SELECT 1" rfl⟩

/-- C9: when schema lookup fails — the fallible connection,
introspection and fetch steps raise any exception, modelled by the
`Except.error` outcome — `get_database_schema` returns the explicit
error value `{'error': "Encountered an error: ..."}` rather than
raising or returning a partial schema. -/
theorem C9_schema_failure_error_value (e : String) :
    get_database_schema (Except.error e) =
      SchemaResult.error ("Encountered an error: " ++ e) := rfl

/-- C10: the head check requires SELECT as a whole word: for every
input whose comment-stripped, trimmed text begins with the letters
SELECT immediately followed by another word character (such as
`"SELECTED 1"`), `validate_select_query` returns False. -/
theorem C10_select_word_boundary_required (s : String)
    (h : selectThenWordChar (cleanQuery s.data) = true) :
    validate_select_query s = false := by
  have h' := h
  unfold selectThenWordChar at h'
  rw [Bool.and_eq_true] at h'
  obtain ⟨h1, h2⟩ := h'
  have h3 : ciHeadWordB "SELECT".data (cleanQuery s.data) = false := by
    refine ciHeadWordB_false_of_next_word h1 ?_
    have hlen : ("SELECT".data).length = 6 := rfl
    rw [hlen]
    exact h2
  have hp : selectHeadCheck (cleanQuery s.data) = false := by
    unfold selectHeadCheck
    rw [cleanQuery_dropWhile]
    exact h3
  simp [validate_select_query, hp]

/-- Witness for C10 at `"SELECTED 1"`. -/
theorem C10_witness :
    selectThenWordChar (cleanQuery ("SELECTED 1" : String).data) = true ∧
    validate_select_query "SELECTED 1" = false :=
  ⟨by decide, C10_select_word_boundary_required "SELECTED 1" (by decide)⟩

end PgDataAnalyzer
